import Mathlib

/-!
# Verification of the Cyprus bus-arrival aggregator (src/main.py)

Shallow embedding of the arrival-resolution engine:
* the Schedule Loader / Schedule Resolver (`get_scheduled_arrivals`, main.py 57-122),
* the Realtime Resolver of the `/bus_stops` handler (main.py 159-188),
* the Arrival Aggregator with its whole-batch fallback (main.py 185-194).

Modelling conventions:
* Python dicts are association lists whose keys are unique (a Python dict holds
  each key once); `dictGet?` is dict lookup.
* Python string comparison is lexicographic on code points; it is embedded by
  `codeLt` on the lists of code points (`Char.toNat`).  Python `sorted` on a
  list of tuples is a stable sort for the tuple order; for the total orders
  used here the sorted permutation is unique, so it is embedded by
  `List.insertionSort`, which is stable and produces a sorted permutation.
* The timezone ("Asia/Nicosia") enters only through `datetime.fromtimestamp`
  on the live path; it is modelled as a fixed UTC offset in seconds.
* Machine clock values (`datetime.now`) are injected as an explicit `now`,
  a time of day in seconds since local midnight.
* The regex `^\d{2}:\d{2}:\d{2}$` is modelled over ASCII digits.
-/

/-- Strict lexicographic comparison of code-point lists (Python `str.__lt__`
after mapping to code points). -/
def codeLt : List Nat → List Nat → Bool
  | [], [] => false
  | [], _ :: _ => true
  | _ :: _, [] => false
  | a :: as, b :: bs =>
    if a < b then true else if b < a then false else codeLt as bs

/-- Code points of a string; Python compares strings by these. -/
def strCodes (s : String) : List Nat := s.data.map Char.toNat

/-- Strict order on pairs of code-point lists: Python tuple comparison
`(x1, x2) < (y1, y2)`. -/
def pairLt (x y : List Nat × List Nat) : Bool :=
  codeLt x.1 y.1 || (decide (x.1 = y.1) && codeLt x.2 y.2)

/-- Non-strict tuple order: Python `x <= y`, i.e. `not (y < x)`. -/
def pairLe (x y : List Nat × List Nat) : Bool := !(pairLt y x)

/-- Sorting relation induced on a type by a sort key into pairs of
code-point lists; this is the order Python `sorted` uses on the tuples the
code builds. -/
def sortRel (key : α → List Nat × List Nat) (x y : α) : Prop :=
  pairLe (key x) (key y) = true

instance sortRelDecidable (key : α → List Nat × List Nat) :
    DecidableRel (sortRel key) :=
  fun _ _ => inferInstanceAs (Decidable (_ = true))

/-- Python `dict.get(k)` on an association list representing a dict. -/
def dictGet? : List (String × α) → String → Option α
  | [], _ => none
  | p :: l, k => if p.1 = k then some p.2 else dictGet? l k

/-- `d[k].append(v)` after `d.setdefault(k, [])`: the update pattern
`if k in d: d[k].append(v) else: d[k] = [v]` used throughout main.py. -/
def appendAt : List (String × List α) → String → α → List (String × List α)
  | [], k, v => [(k, [v])]
  | p :: rest, k, v =>
    if p.1 = k then (p.1, p.2 ++ [v]) :: rest else p :: appendAt rest k v

section CodeLtLemmas

theorem codeLt_nil : codeLt [] [] = false := rfl

theorem codeLt_cons (a b : Nat) (as bs : List Nat) :
    codeLt (a :: as) (b :: bs) =
      if a < b then true else if b < a then false else codeLt as bs := rfl

theorem codeLt_nil_iff : (codeLt [] [] = true) ↔ False := by
  simp [codeLt]

theorem codeLt_cons_iff {a b : Nat} {as bs : List Nat} :
    (codeLt (a :: as) (b :: bs) = true) ↔
      a < b ∨ (a = b ∧ codeLt as bs = true) := by
  rw [codeLt_cons]
  by_cases hab : a < b
  · simp [hab]
  · by_cases hba : b < a
    · have hne : ¬ a = b := by omega
      simp [hab, hba, hne]
    · have he : a = b := by omega
      simp [hab, hba, he]

theorem codeLt_irrefl : ∀ as : List Nat, codeLt as as = false
  | [] => rfl
  | _ :: as => by simp [codeLt, codeLt_irrefl as]

theorem codeLt_asymm :
    ∀ {as bs : List Nat}, codeLt as bs = true → codeLt bs as = false
  | [], [], h => by simp [codeLt] at h
  | [], _ :: _, _ => rfl
  | _ :: _, [], h => by simp [codeLt] at h
  | a :: as, b :: bs, h => by
    by_cases hab : a < b
    · have hba : ¬ b < a := by omega
      simp [codeLt, hab, hba]
    · by_cases hba : b < a
      · simp [codeLt, hab, hba] at h
      · simp only [codeLt, if_neg hab, if_neg hba] at h
        simp [codeLt, hab, hba, codeLt_asymm h]

theorem codeLt_trichotomy :
    ∀ {as bs : List Nat}, codeLt as bs = false → codeLt bs as = false → as = bs
  | [], [], _, _ => rfl
  | [], _ :: _, h, _ => by simp [codeLt] at h
  | _ :: _, [], _, h => by simp [codeLt] at h
  | a :: as, b :: bs, h, h' => by
    by_cases hab : a < b
    · simp [codeLt, hab] at h
    · by_cases hba : b < a
      · simp [codeLt, hba] at h'
      · have hab' : a = b := by omega
        subst hab'
        simp only [codeLt, if_neg hab, if_neg hba] at h h'
        exact congrArg (a :: ·) (codeLt_trichotomy h h')

theorem codeLt_trans :
    ∀ {as bs cs : List Nat},
      codeLt as bs = true → codeLt bs cs = true → codeLt as cs = true
  | [], [], _, h, _ => by simp [codeLt] at h
  | [], _ :: _, [], _, h => by simp [codeLt] at h
  | [], _ :: _, _ :: _, _, _ => rfl
  | _ :: _, [], _, h, _ => by simp [codeLt] at h
  | _ :: _, _ :: _, [], _, h => by simp [codeLt] at h
  | a :: as, b :: bs, c :: cs, h, h' => by
    by_cases hab : a < b
    · by_cases hbc : b < c
      · simp [codeLt, Nat.lt_trans hab hbc]
      · by_cases hcb : c < b
        · simp [codeLt, hbc, hcb] at h'
        · have hbc' : b = c := by omega
          subst hbc'
          simp [codeLt, hab]
    · by_cases hba : b < a
      · simp [codeLt, hab, hba] at h
      · have hab' : a = b := by omega
        subst hab'
        simp only [codeLt, if_neg hab, if_neg hba] at h
        by_cases hac : a < c
        · simp [codeLt, hac]
        · by_cases hca : c < a
          · simp [codeLt, hac, hca] at h'
          · simp only [codeLt, if_neg hac, if_neg hca] at h' ⊢
            exact codeLt_trans h h'

end CodeLtLemmas

section PairOrder

theorem pairLt_asymm {x y : List Nat × List Nat} (h : pairLt x y = true) :
    pairLt y x = false := by
  simp only [pairLt, Bool.or_eq_true, Bool.and_eq_true, decide_eq_true_eq] at h
  rcases h with h | ⟨h1, h2⟩
  · have h' := codeLt_asymm h
    have hne : ¬ y.1 = x.1 := by
      intro he
      rw [he, codeLt_irrefl] at h
      exact Bool.false_ne_true h
    simp [pairLt, h', hne]
  · rw [pairLt, ← h1]
    simp [codeLt_irrefl, codeLt_asymm h2]

theorem pairLt_pseudo_trichotomy {x y : List Nat × List Nat}
    (h : pairLt x y = false) (h' : pairLt y x = false) :
    x.1 = y.1 ∧ x.2 = y.2 := by
  simp only [pairLt, Bool.or_eq_false_iff, Bool.and_eq_false_iff,
    decide_eq_false_iff_not] at h h'
  obtain ⟨ha, hb⟩ := h
  obtain ⟨ha', hb'⟩ := h'
  have h1 : x.1 = y.1 := codeLt_trichotomy ha ha'
  refine ⟨h1, ?_⟩
  rcases hb with hb | hb
  · exact absurd h1 hb
  · rcases hb' with hb' | hb'
    · exact absurd h1.symm hb'
    · exact codeLt_trichotomy hb hb'

theorem pairLt_trans {x y z : List Nat × List Nat}
    (h : pairLt x y = true) (h' : pairLt y z = true) : pairLt x z = true := by
  simp only [pairLt, Bool.or_eq_true, Bool.and_eq_true, decide_eq_true_eq] at h h' ⊢
  rcases h with h | ⟨h1, h2⟩
  · rcases h' with h' | ⟨h1', h2'⟩
    · exact Or.inl (codeLt_trans h h')
    · rw [h1'] at h
      exact Or.inl h
  · rcases h' with h' | ⟨h1', h2'⟩
    · rw [h1]
      exact Or.inl h'
    · exact Or.inr ⟨h1.trans h1', codeLt_trans h2 h2'⟩

instance sortRelTotal (key : α → List Nat × List Nat) :
    IsTotal α (sortRel key) where
  total x y := by
    unfold sortRel pairLe
    cases h : pairLt (key y) (key x)
    · exact Or.inl rfl
    · exact Or.inr (by simp [pairLt_asymm h])

instance sortRelTrans (key : α → List Nat × List Nat) :
    IsTrans α (sortRel key) where
  trans x y z hxy hyz := by
    unfold sortRel pairLe at hxy hyz ⊢
    simp only [Bool.not_eq_true'] at hxy hyz ⊢
    cases hzx : pairLt (key z) (key x)
    · rfl
    · exfalso
      cases hzy : pairLt (key y) (key z)
      · obtain ⟨e1, e2⟩ := pairLt_pseudo_trichotomy hzy hyz
        have heq : pairLt (key z) (key x) = pairLt (key y) (key x) := by
          unfold pairLt
          rw [e1, e2]
        rw [heq, hxy] at hzx
        exact Bool.false_ne_true hzx
      · have ht := pairLt_trans hzy hzx
        rw [hxy] at ht
        exact Bool.false_ne_true ht

end PairOrder

/-- An ASCII digit code point (the regex class `\d`, modelled over ASCII). -/
def isDigitCode (n : Nat) : Bool := decide (48 ≤ n) && decide (n ≤ 57)

/-- The regex `^\d{2}:\d{2}:\d{2}$` of main.py line 63, applied to the code
points of a string (58 is the code point of the colon). -/
def isTimePattern (s : String) : Bool :=
  match strCodes s with
  | [a, b, c, d, e, f, g, h] =>
    isDigitCode a && isDigitCode b && (c == 58) && isDigitCode d &&
      isDigitCode e && (f == 58) && isDigitCode g && isDigitCode h
  | _ => false

/-- Reading of a code-point list as `HH:MM:SS` into seconds since midnight.
This models `datetime.strptime(arrival_time, "%H:%M:%S")` (main.py line 91)
on strings that already matched the regex: the result is `some` exactly when
the field values are a valid time of day, and `none` models the `ValueError`
strptime raises otherwise (for example on `"25:00:00"`). -/
def parseCodes : List Nat → Option Nat
  | [a, b, c, d, e, f, g, h] =>
    if isDigitCode a && isDigitCode b && (c == 58) && isDigitCode d &&
        isDigitCode e && (f == 58) && isDigitCode g && isDigitCode h then
      if 10 * (a - 48) + (b - 48) ≤ 23 && 10 * (d - 48) + (e - 48) ≤ 59 &&
          10 * (g - 48) + (h - 48) ≤ 59 then
        some ((10 * (a - 48) + (b - 48)) * 3600 +
          (10 * (d - 48) + (e - 48)) * 60 + (10 * (g - 48) + (h - 48)))
      else none
    else none
  | _ => none

/-- `strptime` on a string, via its code points. -/
def parseHMS (s : String) : Option Nat := parseCodes (strCodes s)

/-- One value of `trips_dict` (main.py line 51): the fields kept per trip. -/
structure TripInfo where
  route_id : String
  trip_headsign : String
deriving Repr, DecidableEq

/-- One parsed record of `routes.json`, as consumed by main.py lines 26-32;
absent fields are `none`. -/
structure RouteRow where
  route_id : String
  route_short_name : Option String
  route_long_name : Option String
deriving Repr, DecidableEq

/-- `routes_dict` construction (main.py lines 26-32): each route id maps to a
dict with exactly the keys `route_number` and `route_name`, defaulting to
`"Unknown"` when the source field is absent. -/
def mkRoutesDict (rows : List RouteRow) : List (String × List (String × String)) :=
  rows.map (fun r =>
    (r.route_id,
      [("route_number", r.route_short_name.getD "Unknown"),
       ("route_name", r.route_long_name.getD "Unknown")]))

/-- One row of a `stop_times` source file (main.py lines 74-77). -/
structure ScheduleRow where
  stop_id : String
  trip_id : String
  arrival_time : String
deriving Repr, DecidableEq

/-- The two dictionaries `get_scheduled_arrivals` accumulates
(main.py lines 60-61): `stop_schedule` holds same-day candidates as
`(arrival_time, display)` pairs, `tomorrow_buses` holds next-day candidates
as `(instant, display)` pairs, the instant reduced to its seconds of day
(all next-day instants share one date, so ordering only sees the time). -/
structure LoaderState where
  stop_schedule : List (String × List (String × String))
  tomorrow_buses : List (String × List (Nat × String))
deriving Repr, DecidableEq

/-- The display string built for a schedule row (main.py lines 83-88):
trip id resolves to a route id through `trips_dict` (`"Unknown"` on a miss),
the route id resolves through `routes_dict` to the `route_number` and
`route_name` fields.  The inner field reads model `route_info["..."]`, whose
keys are always present on both branches of line 84. -/
def rowDisplay (trips_dict : List (String × TripInfo))
    (routes_dict : List (String × List (String × String)))
    (r : ScheduleRow) : String :=
  let route_id :=
    match dictGet? trips_dict r.trip_id with
    | some ti => ti.route_id
    | none => "Unknown"
  let fd := (dictGet? routes_dict route_id).getD
    [("route_number", "Unknown"), ("route_name", "Unknown")]
  let route_number := (dictGet? fd "route_number").getD "Unknown"
  let route_name := (dictGet? fd "route_name").getD "Unknown"
  route_number ++ " - " ++ route_name ++ " - " ++ r.trip_id ++ " - " ++ r.arrival_time

/-- Row loop of `get_scheduled_arrivals` for one source file
(main.py lines 74-106) with its surrounding `try` (line 70): a row failing
the regex is skipped and processing continues; a row passing the regex whose
time value makes `strptime` raise ends the file (the `except` on line 108
catches the error, so rows already accumulated are kept and later files are
still processed).  A valid row is classified same-day (`arrival_datetime >=
current_time`) or next-day and appended to the matching dictionary. -/
def processFile (trips_dict : List (String × TripInfo))
    (routes_dict : List (String × List (String × String)))
    (now : Nat) : LoaderState → List ScheduleRow → LoaderState
  | st, [] => st
  | st, r :: rs =>
    if isTimePattern r.arrival_time then
      match parseHMS r.arrival_time with
      | none => st
      | some secs =>
        let d := rowDisplay trips_dict routes_dict r
        let st' :=
          if now ≤ secs then
            { st with stop_schedule :=
                appendAt st.stop_schedule r.stop_id (r.arrival_time, d) }
          else
            { st with tomorrow_buses :=
                appendAt st.tomorrow_buses r.stop_id (secs, d) }
        processFile trips_dict routes_dict now st' rs
    else processFile trips_dict routes_dict now st rs

/-- The outer loop over `STOP_TIMES_FILES` (main.py lines 65-109).  A missing
file is skipped (lines 66-68); it is modelled by not listing it. -/
def processFiles (trips_dict : List (String × TripInfo))
    (routes_dict : List (String × List (String × String)))
    (now : Nat) (files : List (List ScheduleRow)) : LoaderState :=
  files.foldl (processFile trips_dict routes_dict now) ⟨[], []⟩

/-- Sort key of a same-day entry: Python sorts the `(arrival_time, display)`
string pairs (main.py line 113). -/
def sortKeyToday (e : String × String) : List Nat × List Nat :=
  (strCodes e.1, strCodes e.2)

/-- Sort key of a next-day entry: Python sorts `(instant, display)` pairs
(main.py line 117); the instants all lie on the same date, so they compare
by seconds of day. -/
def sortKeyMorrow (e : Nat × String) : List Nat × List Nat :=
  ([e.1], strCodes e.2)

/-- `entry[1]` of main.py line 122, applied to the elements of the merged
per-stop list.  After line 118 that list mixes tuples (same-day entries, where
`entry[1]` is the display string) with display strings themselves (next-day
entries appended by line 118, where `entry[1]` is the character at index 1).
Display strings always have at least two characters, so the string branch
never hits Python's `IndexError`. -/
def pyItem1 : (String × String) ⊕ String → String
  | Sum.inl e => e.2
  | Sum.inr s => String.mk ((s.data.drop 1).take 1)

/-- `get_scheduled_arrivals` (main.py lines 57-122): accumulate both
dictionaries over all files, then per stop sort the same-day entries, keep the
first five, top up from the sorted next-day entries when fewer than five exist
and the stop has next-day candidates, truncate to five, and project with
`entry[1]`.  Only stops with at least one same-day entry are keys of the
result. -/
def get_scheduled_arrivals (trips_dict : List (String × TripInfo))
    (routes_dict : List (String × List (String × String)))
    (now : Nat) (files : List (List ScheduleRow)) : List (String × List String) :=
  let st := processFiles trips_dict routes_dict now files
  st.stop_schedule.map (fun p =>
    let sorted5 := (List.insertionSort (sortRel sortKeyToday) p.2).take 5
    let merged : List ((String × String) ⊕ String) :=
      if sorted5.length < 5 then
        match dictGet? st.tomorrow_buses p.1 with
        | some tl =>
          sorted5.map Sum.inl ++
            ((List.insertionSort (sortRel sortKeyMorrow) tl).take
              (5 - sorted5.length)).map (fun t => Sum.inr t.2)
        | none => sorted5.map Sum.inl
      else sorted5.map Sum.inl
    (p.1, (merged.take 5).map pyItem1))

/-- One `stop_time_update` of a trip-update entity (main.py lines 176-178):
a stop id, and the arrival epoch when `HasField("arrival")` holds. -/
structure StopTimeUpdate where
  stop_id : String
  arrival : Option Int
deriving Repr, DecidableEq

/-- One feed entity carrying a trip update (main.py lines 168-172); entities
without a trip update are filtered out by the `HasField` guard and are not
modelled.  `vehicle_id` is present when `HasField("vehicle")` holds. -/
structure TripUpdate where
  route_id : String
  vehicle_id : Option String
  stop_time_update : List StopTimeUpdate
deriving Repr, DecidableEq

/-- Two-digit decimal rendering used by `strftime` fields. -/
def twoDig (n : Nat) : String :=
  if n < 10 then "0" ++ toString n else toString n

/-- `datetime.fromtimestamp(t, CYPRUS_TZ).strftime("%H:%M:%S")` (main.py
line 178): the epoch shifted by the zone's UTC offset (in seconds), reduced
to a time of day and rendered `HH:MM:SS`. -/
def epochToHMS (tzOffset t : Int) : String :=
  let s := ((t + tzOffset) % 86400).toNat
  twoDig (s / 3600) ++ ":" ++ twoDig (s % 3600 / 60) ++ ":" ++ twoDig (s % 60)

/-- The display string of one stop-time update on the live path (main.py
lines 171-183).  The route fields are read with the keys `route_short_name`
and `route_long_name`, although `routes_dict` stores its values under the
keys `route_number` and `route_name` (lines 26-32).  A stop-time update
without an arrival renders `"N/A"`. -/
def liveDisplay (routes_dict : List (String × List (String × String)))
    (tzOffset : Int) (tu : TripUpdate) (stu : StopTimeUpdate) : String :=
  let route_number :=
    (dictGet? ((dictGet? routes_dict tu.route_id).getD []) "route_short_name").getD "Unknown"
  let route_name :=
    (dictGet? ((dictGet? routes_dict tu.route_id).getD []) "route_long_name").getD "Unknown"
  let vehicle_id := tu.vehicle_id.getD "Unknown"
  let arrival_time :=
    match stu.arrival with
    | some t => epochToHMS tzOffset t
    | none => "N/A"
  route_number ++ " - " ++ route_name ++ " - " ++ vehicle_id ++ " - " ++ arrival_time

/-- The `trip_updates` dictionary built by the live path (main.py lines
167-183): every stop-time update of every trip-update entity appends one
display string to its stop's list, in feed order. -/
def buildTripUpdates (routes_dict : List (String × List (String × String)))
    (tzOffset : Int) (entities : List TripUpdate) : List (String × List String) :=
  entities.foldl
    (fun m tu =>
      tu.stop_time_update.foldl
        (fun m' stu => appendAt m' stu.stop_id (liveDisplay routes_dict tzOffset tu stu))
        m)
    []

/-- One record of `stops.json` (main.py lines 39-44): the stop id, its other
static fields, and the `upcoming_buses` field the handler overwrites. -/
structure Stop where
  stop_id : String
  static_fields : List (String × String)
  upcoming_buses : List String
deriving Repr, DecidableEq

/-- Outcome of fetching and decoding the real-time feed: the decoded
trip-update entities, or unavailability (any exception of the `try` block,
main.py lines 161-189). -/
inductive FeedResult where
  | ok (entities : List TripUpdate)
  | unavailable
deriving Repr, DecidableEq

/-- The `/bus_stops` handler (main.py lines 159-194).  On a decoded feed each
stop receives its entry of `trip_updates` (empty when absent); on any feed
failure each stop receives its entry of `get_scheduled_arrivals` computed at
the request's `now` (empty when absent). -/
def bus_stops (routes_dict : List (String × List (String × String)))
    (trips_dict : List (String × TripInfo)) (stops_data : List Stop)
    (now : Nat) (tzOffset : Int) (files : List (List ScheduleRow)) :
    FeedResult → List Stop
  | FeedResult.ok entities =>
    let trip_updates := buildTripUpdates routes_dict tzOffset entities
    stops_data.map (fun s =>
      { s with upcoming_buses := (dictGet? trip_updates s.stop_id).getD [] })
  | FeedResult.unavailable =>
    let stop_schedule := get_scheduled_arrivals trips_dict routes_dict now files
    stops_data.map (fun s =>
      { s with upcoming_buses := (dictGet? stop_schedule s.stop_id).getD [] })

section KvMachinery

/-- Fold a batch of key/value insertions through `appendAt`. -/
def kvFold (m : List (String × List α)) (kvs : List (String × α)) :
    List (String × List α) :=
  kvs.foldl (fun acc kv => appendAt acc kv.1 kv.2) m

theorem dictGet?_appendAt (m : List (String × List α)) (k : String) (v : α)
    (k' : String) :
    dictGet? (appendAt m k v) k' =
      if k' = k then some ((dictGet? m k).getD [] ++ [v]) else dictGet? m k' := by
  induction m with
  | nil =>
    by_cases h : k' = k
    · simp [appendAt, dictGet?, h]
    · have h' : ¬ k = k' := fun he => h he.symm
      simp [appendAt, dictGet?, h, h']
  | cons p rest ih =>
    by_cases hpk : p.1 = k
    · by_cases h : k' = k
      · simp [appendAt, dictGet?, hpk, h, hpk.trans h.symm]
      · have h' : ¬ k = k' := fun he => h he.symm
        simp [appendAt, dictGet?, hpk, h, h']
    · by_cases hpk' : p.1 = k'
      · have : ¬ k' = k := fun he => hpk (hpk'.trans he)
        simp [appendAt, dictGet?, hpk, hpk', this]
      · simp [appendAt, dictGet?, hpk, hpk', ih]

theorem kvFold_nil (m : List (String × List α)) : kvFold m [] = m := rfl

theorem kvFold_cons (m : List (String × List α)) (kv : String × α)
    (kvs : List (String × α)) :
    kvFold m (kv :: kvs) = kvFold (appendAt m kv.1 kv.2) kvs := rfl

theorem kvFold_append (m : List (String × List α)) (a b : List (String × α)) :
    kvFold m (a ++ b) = kvFold (kvFold m a) b := by
  unfold kvFold
  rw [List.foldl_append]

theorem dictGet?_kvFold_getD (k : String) :
    ∀ (kvs : List (String × α)) (m : List (String × List α)),
      (dictGet? (kvFold m kvs) k).getD [] =
        (dictGet? m k).getD [] ++ (kvs.filter (fun kv => kv.1 = k)).map Prod.snd
  | [], m => by simp [kvFold_nil]
  | kv :: kvs, m => by
    rw [kvFold_cons, dictGet?_kvFold_getD k kvs]
    by_cases h : kv.1 = k
    · simp [dictGet?_appendAt, h, List.filter_cons]
    · have h' : ¬ k = kv.1 := fun he => h he.symm
      simp [dictGet?_appendAt, h, h', List.filter_cons]

theorem dictGet?_kvFold_eq_none (k : String) :
    ∀ (kvs : List (String × α)) (m : List (String × List α)),
      (dictGet? (kvFold m kvs) k = none ↔
        dictGet? m k = none ∧ kvs.filter (fun kv => kv.1 = k) = [])
  | [], m => by simp [kvFold_nil]
  | kv :: kvs, m => by
    rw [kvFold_cons, dictGet?_kvFold_eq_none k kvs]
    by_cases h : kv.1 = k
    · simp [dictGet?_appendAt, h, List.filter_cons]
    · have h' : ¬ k = kv.1 := fun he => h he.symm
      simp [dictGet?_appendAt, h, h', List.filter_cons]

theorem foldl_kvFold (g : β → List (String × α)) :
    ∀ (l : List β) (m : List (String × List α)),
      l.foldl (fun acc x => kvFold acc (g x)) m = kvFold m (l.flatMap g)
  | [], m => by simp [kvFold_nil]
  | x :: l, m => by
    rw [List.foldl_cons, foldl_kvFold g l, List.flatMap_cons, kvFold_append]

theorem dictGet?_map_values (g : String → α → β) (k : String) :
    ∀ m : List (String × α),
      dictGet? (m.map (fun p => (p.1, g p.1 p.2))) k = (dictGet? m k).map (g k)
  | [] => rfl
  | p :: m => by
    by_cases h : p.1 = k
    · subst h
      simp [dictGet?]
    · simp [dictGet?, h, dictGet?_map_values g k m]

end KvMachinery

section LoaderCharacterization

/-- The rows of one source file that the row loop actually processes: rows
failing the regex are dropped and the loop continues, while the first row
passing the regex with an invalid time value ends the file. -/
def effRows : List ScheduleRow → List ScheduleRow
  | [] => []
  | r :: rs =>
    if isTimePattern r.arrival_time then
      match parseHMS r.arrival_time with
      | none => []
      | some _ => r :: effRows rs
    else effRows rs

/-- The same-day key/value insertion a processed row produces, if any. -/
def todayKV (trips_dict : List (String × TripInfo))
    (routes_dict : List (String × List (String × String))) (now : Nat)
    (r : ScheduleRow) : Option (String × (String × String)) :=
  match parseHMS r.arrival_time with
  | some secs =>
    if now ≤ secs then
      some (r.stop_id, (r.arrival_time, rowDisplay trips_dict routes_dict r))
    else none
  | none => none

/-- The next-day key/value insertion a processed row produces, if any. -/
def morrowKV (trips_dict : List (String × TripInfo))
    (routes_dict : List (String × List (String × String))) (now : Nat)
    (r : ScheduleRow) : Option (String × (Nat × String)) :=
  match parseHMS r.arrival_time with
  | some secs =>
    if now ≤ secs then none
    else some (r.stop_id, (secs, rowDisplay trips_dict routes_dict r))
  | none => none

/-- All processed rows over all source files, in file order. -/
def effAllRows (files : List (List ScheduleRow)) : List ScheduleRow :=
  (files.map effRows).flatten

theorem processFile_eq (trips_dict : List (String × TripInfo))
    (routes_dict : List (String × List (String × String))) (now : Nat) :
    ∀ (rows : List ScheduleRow) (st : LoaderState),
      processFile trips_dict routes_dict now st rows =
        ⟨kvFold st.stop_schedule
            ((effRows rows).filterMap (todayKV trips_dict routes_dict now)),
          kvFold st.tomorrow_buses
            ((effRows rows).filterMap (morrowKV trips_dict routes_dict now))⟩
  | [], st => by simp [processFile, effRows, kvFold_nil]
  | r :: rs, st => by
    by_cases hpat : isTimePattern r.arrival_time
    · cases hp : parseHMS r.arrival_time with
      | none =>
        simp [processFile, effRows, hpat, hp, kvFold_nil]
      | some secs =>
        have heff : effRows (r :: rs) = r :: effRows rs := by
          simp [effRows, hpat, hp]
        by_cases hnow : now ≤ secs
        · have hkv : todayKV trips_dict routes_dict now r =
              some (r.stop_id, (r.arrival_time, rowDisplay trips_dict routes_dict r)) := by
            simp [todayKV, hp, hnow]
          have hkv' : morrowKV trips_dict routes_dict now r = none := by
            simp [morrowKV, hp, hnow]
          have hstep : processFile trips_dict routes_dict now st (r :: rs) =
              processFile trips_dict routes_dict now
                { st with stop_schedule := appendAt st.stop_schedule r.stop_id (r.arrival_time, rowDisplay trips_dict routes_dict r) }
                rs := by
            simp [processFile, hpat, hp, hnow]
          rw [hstep, processFile_eq trips_dict routes_dict now rs, heff,
            List.filterMap_cons, List.filterMap_cons, hkv, hkv']
          rfl
        · have hkv : todayKV trips_dict routes_dict now r = none := by
            simp [todayKV, hp, hnow]
          have hkv' : morrowKV trips_dict routes_dict now r =
              some (r.stop_id, (secs, rowDisplay trips_dict routes_dict r)) := by
            simp [morrowKV, hp, hnow]
          have hstep : processFile trips_dict routes_dict now st (r :: rs) =
              processFile trips_dict routes_dict now
                { st with tomorrow_buses := appendAt st.tomorrow_buses r.stop_id (secs, rowDisplay trips_dict routes_dict r) }
                rs := by
            simp [processFile, hpat, hp, hnow]
          rw [hstep, processFile_eq trips_dict routes_dict now rs, heff,
            List.filterMap_cons, List.filterMap_cons, hkv, hkv']
          rfl
    · have hstep : processFile trips_dict routes_dict now st (r :: rs) =
          processFile trips_dict routes_dict now st rs := by
        simp [processFile, hpat]
      have heff : effRows (r :: rs) = effRows rs := by
        simp [effRows, hpat]
      rw [hstep, heff]
      exact processFile_eq trips_dict routes_dict now rs st

theorem processFiles_eq (trips_dict : List (String × TripInfo))
    (routes_dict : List (String × List (String × String))) (now : Nat)
    (files : List (List ScheduleRow)) :
    processFiles trips_dict routes_dict now files =
      ⟨kvFold [] ((effAllRows files).filterMap (todayKV trips_dict routes_dict now)),
        kvFold [] ((effAllRows files).filterMap (morrowKV trips_dict routes_dict now))⟩ := by
  suffices h : ∀ (fs : List (List ScheduleRow)) (st : LoaderState),
      fs.foldl (processFile trips_dict routes_dict now) st =
        ⟨kvFold st.stop_schedule
            ((effAllRows fs).filterMap (todayKV trips_dict routes_dict now)),
          kvFold st.tomorrow_buses
            ((effAllRows fs).filterMap (morrowKV trips_dict routes_dict now))⟩ by
    exact h files ⟨[], []⟩
  intro fs
  induction fs with
  | nil => intro st; simp [effAllRows, kvFold_nil]
  | cons f fs ih =>
    intro st
    rw [List.foldl_cons, processFile_eq, ih]
    simp [effAllRows, List.filterMap_append, kvFold_append]

/-- The same-day candidate entries of one stop, over all processed rows. -/
def todayEntriesFor (trips_dict : List (String × TripInfo))
    (routes_dict : List (String × List (String × String))) (now : Nat)
    (files : List (List ScheduleRow)) (sid : String) : List (String × String) :=
  (((effAllRows files).filterMap (todayKV trips_dict routes_dict now)).filter
    (fun kv => kv.1 = sid)).map Prod.snd

/-- The next-day candidate entries of one stop, over all processed rows. -/
def morrowEntriesFor (trips_dict : List (String × TripInfo))
    (routes_dict : List (String × List (String × String))) (now : Nat)
    (files : List (List ScheduleRow)) (sid : String) : List (Nat × String) :=
  (((effAllRows files).filterMap (morrowKV trips_dict routes_dict now)).filter
    (fun kv => kv.1 = sid)).map Prod.snd

/-- The per-stop finalization of main.py lines 112-122: sort the same-day
entries, keep five, top up from the next-day entries when they exist, truncate
to five, project with `entry[1]`. -/
def finalizeStop (todays : List (String × String))
    (morrowOpt : Option (List (Nat × String))) : List String :=
  let sorted5 := (List.insertionSort (sortRel sortKeyToday) todays).take 5
  let merged : List ((String × String) ⊕ String) :=
    if sorted5.length < 5 then
      match morrowOpt with
      | some tl =>
        sorted5.map Sum.inl ++
          ((List.insertionSort (sortRel sortKeyMorrow) tl).take
            (5 - sorted5.length)).map (fun t => Sum.inr t.2)
      | none => sorted5.map Sum.inl
    else sorted5.map Sum.inl
  (merged.take 5).map pyItem1

theorem sched_today_lookup (trips_dict : List (String × TripInfo))
    (routes_dict : List (String × List (String × String))) (now : Nat)
    (files : List (List ScheduleRow)) (sid : String) :
    (dictGet? (processFiles trips_dict routes_dict now files).stop_schedule sid).getD [] =
      todayEntriesFor trips_dict routes_dict now files sid := by
  rw [processFiles_eq]
  simpa [todayEntriesFor, List.filter_map] using
    dictGet?_kvFold_getD sid
      ((effAllRows files).filterMap (todayKV trips_dict routes_dict now)) []

theorem sched_morrow_lookup (trips_dict : List (String × TripInfo))
    (routes_dict : List (String × List (String × String))) (now : Nat)
    (files : List (List ScheduleRow)) (sid : String) :
    (dictGet? (processFiles trips_dict routes_dict now files).tomorrow_buses sid).getD [] =
      morrowEntriesFor trips_dict routes_dict now files sid := by
  rw [processFiles_eq]
  simpa [morrowEntriesFor, List.filter_map] using
    dictGet?_kvFold_getD sid
      ((effAllRows files).filterMap (morrowKV trips_dict routes_dict now)) []

theorem sched_today_lookup_none (trips_dict : List (String × TripInfo))
    (routes_dict : List (String × List (String × String))) (now : Nat)
    (files : List (List ScheduleRow)) (sid : String) :
    (dictGet? (processFiles trips_dict routes_dict now files).stop_schedule sid = none ↔
      todayEntriesFor trips_dict routes_dict now files sid = []) := by
  rw [processFiles_eq]
  rw [show (⟨kvFold [] ((effAllRows files).filterMap (todayKV trips_dict routes_dict now)),
      kvFold [] ((effAllRows files).filterMap (morrowKV trips_dict routes_dict now))⟩ :
        LoaderState).stop_schedule =
      kvFold [] ((effAllRows files).filterMap (todayKV trips_dict routes_dict now)) from rfl]
  rw [dictGet?_kvFold_eq_none]
  simp [todayEntriesFor, dictGet?]

theorem sched_lookup (trips_dict : List (String × TripInfo))
    (routes_dict : List (String × List (String × String))) (now : Nat)
    (files : List (List ScheduleRow)) (sid : String) :
    dictGet? (get_scheduled_arrivals trips_dict routes_dict now files) sid =
      (dictGet? (processFiles trips_dict routes_dict now files).stop_schedule sid).map
        (fun todays =>
          finalizeStop todays
            (dictGet? (processFiles trips_dict routes_dict now files).tomorrow_buses sid)) := by
  unfold get_scheduled_arrivals
  exact dictGet?_map_values
    (fun k todays =>
      finalizeStop todays
        (dictGet? (processFiles trips_dict routes_dict now files).tomorrow_buses k))
    sid (processFiles trips_dict routes_dict now files).stop_schedule

end LoaderCharacterization

section LiveCharacterization

/-- The key/value insertions the live path performs, one per stop-time update
of every trip-update entity, in feed order. -/
def liveKVs (routes_dict : List (String × List (String × String)))
    (tzOffset : Int) (entities : List TripUpdate) : List (String × String) :=
  entities.flatMap (fun tu =>
    tu.stop_time_update.map (fun stu =>
      (stu.stop_id, liveDisplay routes_dict tzOffset tu stu)))

theorem buildTripUpdates_eq (routes_dict : List (String × List (String × String)))
    (tzOffset : Int) (entities : List TripUpdate) :
    buildTripUpdates routes_dict tzOffset entities =
      kvFold [] (liveKVs routes_dict tzOffset entities) := by
  have inner : ∀ (tu : TripUpdate) (m : List (String × List String)),
      tu.stop_time_update.foldl
        (fun m' stu => appendAt m' stu.stop_id (liveDisplay routes_dict tzOffset tu stu)) m =
      kvFold m (tu.stop_time_update.map (fun stu =>
        (stu.stop_id, liveDisplay routes_dict tzOffset tu stu))) := by
    intro tu m
    unfold kvFold
    rw [List.foldl_map]
  unfold buildTripUpdates liveKVs
  simp only [inner]
  exact foldl_kvFold _ entities []

theorem live_lookup (routes_dict : List (String × List (String × String)))
    (tzOffset : Int) (entities : List TripUpdate) (sid : String) :
    (dictGet? (buildTripUpdates routes_dict tzOffset entities) sid).getD [] =
      ((liveKVs routes_dict tzOffset entities).filter
        (fun kv => kv.1 = sid)).map Prod.snd := by
  rw [buildTripUpdates_eq]
  simpa using dictGet?_kvFold_getD sid (liveKVs routes_dict tzOffset entities) []

theorem live_lookup_none (routes_dict : List (String × List (String × String)))
    (tzOffset : Int) (entities : List TripUpdate) (sid : String) :
    (dictGet? (buildTripUpdates routes_dict tzOffset entities) sid = none ↔
      (liveKVs routes_dict tzOffset entities).filter (fun kv => kv.1 = sid) = []) := by
  rw [buildTripUpdates_eq, dictGet?_kvFold_eq_none]
  simp [dictGet?]

end LiveCharacterization

section TimeMonotonicity

set_option maxHeartbeats 2000000 in
theorem parseCodes_mono :
    ∀ {as bs : List Nat} {va vb : Nat}, parseCodes as = some va →
      parseCodes bs = some vb → codeLt as bs = true → va ≤ vb := by
  intro as bs va vb hpa hpb hlt
  unfold parseCodes at hpa hpb
  split at hpa
  · rename_i a1 a2 a3 a4 a5 a6 a7 a8
    split at hpb
    · rename_i b1 b2 b3 b4 b5 b6 b7 b8
      split_ifs at hpa with hda hva'
      split_ifs at hpb with hdb hvb'
      simp only [isDigitCode, Bool.and_eq_true, decide_eq_true_eq,
        beq_iff_eq] at hda hdb hva' hvb'
      obtain ⟨⟨⟨⟨⟨⟨⟨ha1, ha2⟩, ha3⟩, ha4⟩, ha5⟩, ha6⟩, ha7⟩, ha8⟩ := hda
      obtain ⟨⟨⟨⟨⟨⟨⟨hb1, hb2⟩, hb3⟩, hb4⟩, hb5⟩, hb6⟩, hb7⟩, hb8⟩ := hdb
      obtain ⟨⟨hha, hma⟩, hsa⟩ := hva'
      obtain ⟨⟨hhb, hmb⟩, hsb⟩ := hvb'
      have hva := Option.some.inj hpa
      have hvb := Option.some.inj hpb
      simp only [codeLt_cons_iff, codeLt_nil_iff] at hlt
      omega
    · exact absurd hpb (by simp)
  · exact absurd hpa (by simp)

theorem sortRel_today_time_le {a b : String × String} {va vb : Nat}
    (ha : parseHMS a.1 = some va) (hb : parseHMS b.1 = some vb)
    (hr : sortRel sortKeyToday a b) : va ≤ vb := by
  unfold parseHMS at ha hb
  unfold sortRel pairLe at hr
  have hr' : pairLt (sortKeyToday b) (sortKeyToday a) = false := by
    cases h : pairLt (sortKeyToday b) (sortKeyToday a)
    · rfl
    · rw [h] at hr
      exact absurd hr (by simp)
  have hr1 : codeLt (strCodes b.1) (strCodes a.1) = false := by
    simp only [pairLt, Bool.or_eq_false_iff] at hr'
    exact hr'.1
  cases hab : codeLt (strCodes a.1) (strCodes b.1)
  · have he : strCodes a.1 = strCodes b.1 := codeLt_trichotomy hab hr1
    rw [he, hb] at ha
    exact Nat.le_of_eq (Option.some.inj ha).symm
  · exact parseCodes_mono ha hb hab

theorem mem_todayEntriesFor (trips_dict : List (String × TripInfo))
    (routes_dict : List (String × List (String × String))) (now : Nat)
    (files : List (List ScheduleRow)) (sid : String) :
    ∀ e ∈ todayEntriesFor trips_dict routes_dict now files sid,
      ∃ v, parseHMS e.1 = some v ∧ now ≤ v := by
  intro e he
  unfold todayEntriesFor at he
  simp only [List.mem_map, List.mem_filter] at he
  obtain ⟨kv, ⟨hkvmem, _⟩, hkve⟩ := he
  simp only [List.mem_filterMap] at hkvmem
  obtain ⟨r, _, hkv⟩ := hkvmem
  cases hp : parseHMS r.arrival_time with
  | none =>
    simp only [todayKV, hp] at hkv
    exact absurd hkv (by simp)
  | some secs =>
    simp only [todayKV, hp] at hkv
    by_cases hnow : now ≤ secs
    · rw [if_pos hnow] at hkv
      refine ⟨secs, ?_, hnow⟩
      have h2 : e = (r.arrival_time, rowDisplay trips_dict routes_dict r) := by
        rw [← hkve, ← Option.some.inj hkv]
      rw [h2]
      exact hp
    · rw [if_neg hnow] at hkv
      exact absurd hkv (by simp)

end TimeMonotonicity

section LengthBounds

theorem finalizeStop_length_le (todays : List (String × String))
    (morrowOpt : Option (List (Nat × String))) :
    (finalizeStop todays morrowOpt).length ≤ 5 := by
  unfold finalizeStop
  simp only [List.length_map, List.length_take]
  omega

theorem sched_value_length_le (trips_dict : List (String × TripInfo))
    (routes_dict : List (String × List (String × String))) (now : Nat)
    (files : List (List ScheduleRow)) (sid : String) :
    ((dictGet? (get_scheduled_arrivals trips_dict routes_dict now files) sid).getD []).length ≤ 5 := by
  rw [sched_lookup]
  cases hd : dictGet? (processFiles trips_dict routes_dict now files).stop_schedule sid with
  | none => simp
  | some todays => simpa using finalizeStop_length_le todays _

end LengthBounds

/-- C1, counterexample: on the live path, a feed whose single trip-update
entity carries six stop-time updates for one stop yields an `upcoming_buses`
list with six entries, so the claimed bound of five fails on the live path. -/
theorem c1_live_list_exceeds_five :
    ((bus_stops [] [] [⟨"S", [], []⟩] 0 0 []
      (FeedResult.ok [⟨"R1", some "v1",
        [⟨"S", some 1⟩, ⟨"S", some 2⟩, ⟨"S", some 3⟩,
         ⟨"S", some 4⟩, ⟨"S", some 5⟩, ⟨"S", some 6⟩]⟩])).headD
      ⟨"", [], []⟩).upcoming_buses.length = 6 := by
  decide

/-- C1 (amended): on the schedule-fallback path every stop's `upcoming_buses`
has at most five entries; the live path enforces no bound. -/
theorem c1_fallback_at_most_five
    (routes_dict : List (String × List (String × String)))
    (trips_dict : List (String × TripInfo)) (stops_data : List Stop)
    (now : Nat) (tzOffset : Int) (files : List (List ScheduleRow)) (s : Stop)
    (hs : s ∈ bus_stops routes_dict trips_dict stops_data now tzOffset files
      FeedResult.unavailable) :
    s.upcoming_buses.length ≤ 5 := by
  simp only [bus_stops, List.mem_map] at hs
  obtain ⟨s0, _, rfl⟩ := hs
  exact sched_value_length_le trips_dict routes_dict now files s0.stop_id

theorem c1_fallback_at_most_five_witness :
    (⟨"A", [], []⟩ : Stop) ∈
      bus_stops [] [] [⟨"A", [], []⟩] 0 0 [] FeedResult.unavailable ∧
    (⟨"A", [], []⟩ : Stop).upcoming_buses.length ≤ 5 :=
  ⟨by decide,
    c1_fallback_at_most_five [] [] [⟨"A", [], []⟩] 0 0 [] ⟨"A", [], []⟩ (by decide)⟩

/-- C3: when the feed is unavailable, every stop's `upcoming_buses` equals
the Schedule Resolver's output for that stop at the same `now` — the whole
batch is assigned from the resolver, so no stop mixes live and scheduled
entries. -/
theorem c3_fallback_equals_schedule_output
    (routes_dict : List (String × List (String × String)))
    (trips_dict : List (String × TripInfo)) (stops_data : List Stop)
    (now : Nat) (tzOffset : Int) (files : List (List ScheduleRow)) :
    (bus_stops routes_dict trips_dict stops_data now tzOffset files
        FeedResult.unavailable).map Stop.upcoming_buses =
      stops_data.map (fun s =>
        (dictGet? (get_scheduled_arrivals trips_dict routes_dict now files)
          s.stop_id).getD []) := by
  simp only [bus_stops, List.map_map]
  rfl

/-- C4, counterexample: the row `"25:00:00"` matches the two-digit regex but
makes `strptime` raise, and the surrounding per-file `try` then abandons the
rest of that source file: the following valid `"10:00:00"` row is never
emitted, so "processing of the remaining rows of the same source continues"
fails. -/
theorem c4_invalid_value_aborts_file :
    get_scheduled_arrivals [] [] 0
      [[⟨"S", "t", "25:00:00"⟩, ⟨"S", "t2", "10:00:00"⟩]] = [] := by
  decide

/-- C4 (amended): a row failing the `HH:MM:SS` digit pattern is dropped and
processing of the same source continues; a row matching the pattern whose
value is not a valid time of day is also excluded and does not crash the
loader, but it ends processing of the remaining rows of its source file. -/
theorem c4_malformed_row_handling (trips_dict : List (String × TripInfo))
    (routes_dict : List (String × List (String × String))) (now : Nat)
    (st : LoaderState) (r : ScheduleRow) (rs : List ScheduleRow) :
    (isTimePattern r.arrival_time = false →
      processFile trips_dict routes_dict now st (r :: rs) =
        processFile trips_dict routes_dict now st rs) ∧
    (isTimePattern r.arrival_time = true → parseHMS r.arrival_time = none →
      processFile trips_dict routes_dict now st (r :: rs) = st) := by
  constructor
  · intro h
    simp [processFile, h]
  · intro h hp
    simp [processFile, h, hp]

theorem c4_malformed_row_handling_witness :
    processFile [] [] 0 ⟨[], []⟩ [⟨"S", "t", "9:5:3"⟩] =
      processFile [] [] 0 ⟨[], []⟩ [] ∧
    processFile [] [] 0 ⟨[], []⟩
      [⟨"S", "t", "25:00:00"⟩, ⟨"S", "t2", "10:00:00"⟩] = ⟨[], []⟩ :=
  ⟨(c4_malformed_row_handling [] [] 0 ⟨[], []⟩ ⟨"S", "t", "9:5:3"⟩ []).1
      (by decide),
    (c4_malformed_row_handling [] [] 0 ⟨[], []⟩ ⟨"S", "t", "25:00:00"⟩
      [⟨"S", "t2", "10:00:00"⟩]).2 (by decide) (by decide)⟩

/-- C8: when the feed decodes successfully and no trip-update entity carries
a stop-time update for a stop, that stop's `upcoming_buses` is the empty
list (not the scheduled fallback, which is never consulted on this path). -/
theorem c8_no_updates_yields_empty
    (routes_dict : List (String × List (String × String)))
    (trips_dict : List (String × TripInfo)) (stops_data : List Stop)
    (now : Nat) (tzOffset : Int) (files : List (List ScheduleRow))
    (entities : List TripUpdate) (s : Stop)
    (hs : s ∈ bus_stops routes_dict trips_dict stops_data now tzOffset files
      (FeedResult.ok entities))
    (hno : ∀ tu ∈ entities, ∀ stu ∈ tu.stop_time_update, stu.stop_id ≠ s.stop_id) :
    s.upcoming_buses = [] := by
  simp only [bus_stops, List.mem_map] at hs
  obtain ⟨s0, _, rfl⟩ := hs
  have hnone : dictGet? (buildTripUpdates routes_dict tzOffset entities)
      s0.stop_id = none := by
    rw [live_lookup_none]
    apply List.filter_eq_nil_iff.mpr
    intro kv hkv
    simp only [liveKVs, List.mem_flatMap, List.mem_map] at hkv
    obtain ⟨tu, htu, stu, hstu, rfl⟩ := hkv
    simpa using hno tu htu stu hstu
  show (dictGet? _ _).getD [] = []
  rw [hnone]
  rfl

theorem c8_no_updates_yields_empty_witness :
    (⟨"A", [], []⟩ : Stop) ∈ bus_stops [] [] [⟨"A", [], []⟩] 0 0 []
      (FeedResult.ok [⟨"R1", none, [⟨"B", some 7⟩]⟩]) ∧
    (⟨"A", [], []⟩ : Stop).upcoming_buses = [] :=
  ⟨by decide,
    c8_no_updates_yields_empty [] [] [⟨"A", [], []⟩] 0 0 []
      [⟨"R1", none, [⟨"B", some 7⟩]⟩] ⟨"A", [], []⟩ (by decide) (by decide)⟩

/-- C10: on both paths the handler rewrites only `upcoming_buses`: the stop ids
and all other static fields, and the number and order of the stop records,
are unchanged. -/
theorem c10_only_upcoming_buses_modified
    (routes_dict : List (String × List (String × String)))
    (trips_dict : List (String × TripInfo)) (stops_data : List Stop)
    (now : Nat) (tzOffset : Int) (files : List (List ScheduleRow))
    (fr : FeedResult) :
    (bus_stops routes_dict trips_dict stops_data now tzOffset files fr).map
        (fun s => (s.stop_id, s.static_fields)) =
      stops_data.map (fun s => (s.stop_id, s.static_fields)) ∧
    (bus_stops routes_dict trips_dict stops_data now tzOffset files fr).length =
      stops_data.length := by
  cases fr <;> exact ⟨by simp only [bus_stops, List.map_map]; rfl, by simp [bus_stops]⟩

/-- C5, counterexample: the rows for stop `"S"` are inserted with trip `t5`
before trip `t4`, both at `"08:00:00"`.  Python sorts the
`(arrival_time, display)` tuples, so the tie is broken by comparing the
display strings, and `t4` comes out before `t5` — insertion order is not
retained for ties, contradicting the claim. -/
theorem c5_tie_breaks_by_display_not_insertion :
    (dictGet? (get_scheduled_arrivals [] [] 0
      [[⟨"S", "t1", "06:00:00"⟩, ⟨"S", "t2", "07:00:00"⟩, ⟨"S", "t5", "08:00:00"⟩,
        ⟨"S", "t4", "08:00:00"⟩, ⟨"S", "t3", "09:00:00"⟩]]) "S").getD [] =
      ["Unknown - Unknown - t1 - 06:00:00", "Unknown - Unknown - t2 - 07:00:00",
       "Unknown - Unknown - t4 - 08:00:00", "Unknown - Unknown - t5 - 08:00:00",
       "Unknown - Unknown - t3 - 09:00:00"] := by
  decide

/-- C5 (amended): for a stop with at least five same-day candidates the
resolver returns exactly the first five entries of the sorted same-day list:
five entries, all drawn from the same-day candidates, ascending by
time-of-day, every kept entry no later than every dropped one — but ties are
ordered by the full `(arrival_time, display)` tuple, i.e. by display string,
not by insertion order. -/
theorem c5_top_five_today (trips_dict : List (String × TripInfo))
    (routes_dict : List (String × List (String × String))) (now : Nat)
    (files : List (List ScheduleRow)) (sid : String)
    (h5 : 5 ≤ (todayEntriesFor trips_dict routes_dict now files sid).length) :
    (dictGet? (get_scheduled_arrivals trips_dict routes_dict now files) sid).getD [] =
      ((List.insertionSort (sortRel sortKeyToday)
        (todayEntriesFor trips_dict routes_dict now files sid)).take 5).map Prod.snd ∧
    ((dictGet? (get_scheduled_arrivals trips_dict routes_dict now files) sid).getD []).length = 5 ∧
    (∀ e ∈ (List.insertionSort (sortRel sortKeyToday)
        (todayEntriesFor trips_dict routes_dict now files sid)).take 5,
      e ∈ todayEntriesFor trips_dict routes_dict now files sid) ∧
    List.Sorted (sortRel sortKeyToday)
      ((List.insertionSort (sortRel sortKeyToday)
        (todayEntriesFor trips_dict routes_dict now files sid)).take 5) ∧
    List.Pairwise (fun a b : String × String =>
        (parseHMS a.1).getD 0 ≤ (parseHMS b.1).getD 0)
      ((List.insertionSort (sortRel sortKeyToday)
        (todayEntriesFor trips_dict routes_dict now files sid)).take 5) ∧
    ∀ a ∈ (List.insertionSort (sortRel sortKeyToday)
        (todayEntriesFor trips_dict routes_dict now files sid)).take 5,
      ∀ b ∈ (List.insertionSort (sortRel sortKeyToday)
        (todayEntriesFor trips_dict routes_dict now files sid)).drop 5,
      (parseHMS a.1).getD 0 ≤ (parseHMS b.1).getD 0 := by
  set T := todayEntriesFor trips_dict routes_dict now files sid with hT
  set S := List.insertionSort (sortRel sortKeyToday) T with hS
  have hvalid : ∀ e ∈ T, ∃ v, parseHMS e.1 = some v ∧ now ≤ v :=
    mem_todayEntriesFor trips_dict routes_dict now files sid
  have hmemS : ∀ e ∈ S, e ∈ T := by
    intro e he
    rw [hS] at he
    exact (List.mem_insertionSort (sortRel sortKeyToday)).mp he
  have hsomeT : dictGet? (processFiles trips_dict routes_dict now files).stop_schedule sid =
      some T := by
    cases hd : dictGet? (processFiles trips_dict routes_dict now files).stop_schedule sid with
    | none =>
      have hTnil := (sched_today_lookup_none trips_dict routes_dict now files sid).mp hd
      rw [← hT] at hTnil
      rw [hTnil] at h5
      simp at h5
    | some t =>
      have hg := sched_today_lookup trips_dict routes_dict now files sid
      rw [hd, ← hT] at hg
      simp only [Option.getD_some] at hg
      rw [hg]
  have hout : (dictGet? (get_scheduled_arrivals trips_dict routes_dict now files) sid).getD [] =
      finalizeStop T
        (dictGet? (processFiles trips_dict routes_dict now files).tomorrow_buses sid) := by
    rw [sched_lookup, hsomeT]
    rfl
  have hlenS : S.length = T.length := by
    rw [hS]
    exact List.length_insertionSort (sortRel sortKeyToday) T
  have hlen5 : (S.take 5).length = 5 := by
    rw [List.length_take, hlenS]
    omega
  have hfin : finalizeStop T
      (dictGet? (processFiles trips_dict routes_dict now files).tomorrow_buses sid) =
      (S.take 5).map Prod.snd := by
    unfold finalizeStop
    rw [← hS]
    have hnotlt : ¬ ((S.take 5).length < 5) := by omega
    simp only [if_neg hnotlt]
    rw [List.take_of_length_le (by simp [hlen5])]
    rw [List.map_map]
    rfl
  have hsorted : List.Sorted (sortRel sortKeyToday) S := by
    rw [hS]
    exact List.sorted_insertionSort (sortRel sortKeyToday) T
  have hsortedTake : List.Sorted (sortRel sortKeyToday) (S.take 5) :=
    List.Pairwise.sublist (List.take_sublist 5 S) hsorted
  have hmemTake : ∀ e ∈ S.take 5, e ∈ T :=
    fun e he => hmemS e (List.take_subset 5 S he)
  have htime : ∀ a b : String × String, a ∈ T → b ∈ T → sortRel sortKeyToday a b →
      (parseHMS a.1).getD 0 ≤ (parseHMS b.1).getD 0 := by
    intro a b haT hbT hr
    obtain ⟨va, hva, _⟩ := hvalid a haT
    obtain ⟨vb, hvb, _⟩ := hvalid b hbT
    rw [hva, hvb]
    exact sortRel_today_time_le hva hvb hr
  refine ⟨by rw [hout, hfin], by rw [hout, hfin, List.length_map, hlen5], hmemTake,
    hsortedTake, ?_, ?_⟩
  · exact hsortedTake.imp_of_mem
      (fun {a b} ha hb hr => htime a b (hmemTake a ha) (hmemTake b hb) hr)
  · intro a ha b hb
    have hsplit : S = S.take 5 ++ S.drop 5 := (List.take_append_drop 5 S).symm
    have hpw : List.Pairwise (sortRel sortKeyToday) (S.take 5 ++ S.drop 5) := by
      rw [← hsplit]
      exact hsorted
    have hcross := (List.pairwise_append.mp hpw).2.2
    exact htime a b (hmemTake a ha) (hmemS b (List.drop_subset 5 S hb))
      (hcross a ha b hb)

theorem c5_top_five_today_witness :
    5 ≤ (todayEntriesFor [] [] 0
      [[⟨"S", "t1", "06:00:00"⟩, ⟨"S", "t2", "07:00:00"⟩, ⟨"S", "t5", "08:00:00"⟩,
        ⟨"S", "t4", "08:00:00"⟩, ⟨"S", "t3", "09:00:00"⟩]] "S").length ∧
    ((dictGet? (get_scheduled_arrivals [] [] 0
      [[⟨"S", "t1", "06:00:00"⟩, ⟨"S", "t2", "07:00:00"⟩, ⟨"S", "t5", "08:00:00"⟩,
        ⟨"S", "t4", "08:00:00"⟩, ⟨"S", "t3", "09:00:00"⟩]]) "S").getD []).length = 5 :=
  ⟨by decide,
    (c5_top_five_today [] [] 0
      [[⟨"S", "t1", "06:00:00"⟩, ⟨"S", "t2", "07:00:00"⟩, ⟨"S", "t5", "08:00:00"⟩,
        ⟨"S", "t4", "08:00:00"⟩, ⟨"S", "t3", "09:00:00"⟩]] "S" (by decide)).2.1⟩

/-- C6: the route `"R1"` is present in `routes_dict` with short name `"30"`
and long name `"City Line"`, yet the live path displays
`"Unknown - Unknown"`, because lines 173-174 read the keys
`route_short_name` and `route_long_name` while `routes_dict` stores its
values under `route_number` and `route_name` (lines 26-32).  The sentinel is
not reserved for missing routes: it appears for every route. -/
theorem c6_live_route_always_unknown :
    dictGet? (mkRoutesDict [⟨"R1", some "30", some "City Line"⟩]) "R1" =
      some [("route_number", "30"), ("route_name", "City Line")] ∧
    ((bus_stops (mkRoutesDict [⟨"R1", some "30", some "City Line"⟩]) []
      [⟨"S", [], []⟩] 0 0 []
      (FeedResult.ok [⟨"R1", some "v1", [⟨"S", some 3600⟩]⟩])).headD
      ⟨"", [], []⟩).upcoming_buses = ["Unknown - Unknown - v1 - 01:00:00"] := by
  constructor <;> decide

/-- C7, counterexample: a stop-time update without an arrival still appends
an entry, rendered with the `"N/A"` placeholder — it does not contribute "no
entry" as the claim states. -/
theorem c7_missing_arrival_appends_na :
    ((bus_stops [] [] [⟨"S", [], []⟩] 0 0 []
      (FeedResult.ok [⟨"R1", none, [⟨"S", none⟩]⟩])).headD
      ⟨"", [], []⟩).upcoming_buses = ["Unknown - Unknown - Unknown - N/A"] := by
  decide

/-- C7 (amended): on the live path every stop-time update of every
trip-update entity contributes exactly one display string to its stop's
list, in feed order; by `liveDisplay`, an update with a present arrival ends
in the local `HH:MM:SS` rendering of that epoch, and one without an arrival
ends in `"N/A"`. -/
theorem c7_live_entries_shape
    (routes_dict : List (String × List (String × String)))
    (trips_dict : List (String × TripInfo)) (stops_data : List Stop)
    (now : Nat) (tzOffset : Int) (files : List (List ScheduleRow))
    (entities : List TripUpdate) :
    (bus_stops routes_dict trips_dict stops_data now tzOffset files
        (FeedResult.ok entities)).map Stop.upcoming_buses =
      stops_data.map (fun s =>
        ((liveKVs routes_dict tzOffset entities).filter
          (fun kv => kv.1 = s.stop_id)).map Prod.snd) := by
  simp only [bus_stops, List.map_map]
  congr 1
  funext s
  show (dictGet? (buildTripUpdates routes_dict tzOffset entities) s.stop_id).getD [] = _
  exact live_lookup routes_dict tzOffset entities s.stop_id

/-- C9: a schedule row whose trip id misses the Trip table (resolving the
route id to the sentinel, itself absent from the Route table), or whose
resolved route id misses the Route table, is displayed with
`"Unknown - Unknown"` route fields and is still emitted: depending on how
its time compares with `now` it produces exactly its same-day or next-day
insertion.  All lookups are total, so no error is raised. -/
theorem c9_unknown_reference_sentinel (trips_dict : List (String × TripInfo))
    (routes_dict : List (String × List (String × String))) (r : ScheduleRow)
    (secs : Nat) (hp : parseHMS r.arrival_time = some secs)
    (hu : (dictGet? trips_dict r.trip_id = none ∧
        dictGet? routes_dict "Unknown" = none) ∨
      (∃ ti, dictGet? trips_dict r.trip_id = some ti ∧
        dictGet? routes_dict ti.route_id = none)) :
    rowDisplay trips_dict routes_dict r =
      "Unknown - Unknown - " ++ r.trip_id ++ " - " ++ r.arrival_time ∧
    ∀ now : Nat,
      (now ≤ secs → todayKV trips_dict routes_dict now r =
        some (r.stop_id, (r.arrival_time, rowDisplay trips_dict routes_dict r))) ∧
      (¬ now ≤ secs → morrowKV trips_dict routes_dict now r =
        some (r.stop_id, (secs, rowDisplay trips_dict routes_dict r))) := by
  constructor
  · rcases hu with ⟨h1, h2⟩ | ⟨ti, h1, h2⟩
    · simp [rowDisplay, dictGet?, h1, h2]
    · simp [rowDisplay, dictGet?, h1, h2]
  · intro now
    constructor
    · intro h
      simp [todayKV, hp, h]
    · intro h
      simp [morrowKV, hp, h]

theorem c9_unknown_reference_sentinel_witness :
    rowDisplay [] [] ⟨"S", "t", "08:00:00"⟩ =
      "Unknown - Unknown - t - 08:00:00" ∧
    todayKV [] [] 0 ⟨"S", "t", "08:00:00"⟩ =
      some ("S", ("08:00:00", rowDisplay [] [] ⟨"S", "t", "08:00:00"⟩)) :=
  ⟨(c9_unknown_reference_sentinel [] [] ⟨"S", "t", "08:00:00"⟩ 28800 (by decide)
      (Or.inl ⟨rfl, rfl⟩)).1,
    ((c9_unknown_reference_sentinel [] [] ⟨"S", "t", "08:00:00"⟩ 28800 (by decide)
      (Or.inl ⟨rfl, rfl⟩)).2 0).1 (by decide)⟩

/-- C2: the next-day top-up is broken twice.  First conjunct: a stop with one
same-day arrival and one next-day candidate gets the candidate appended as
the bare character `"n"` — line 118 extends the per-stop list with the
display strings themselves, and line 122 then applies `entry[1]` uniformly,
which for a string returns its character at index 1 (here the `n` of
`"Unknown - ..."`) instead of the display string.  Second conjunct: a stop
with zero same-day arrivals is not a key of `stop_schedule`, so the top-up
loop never reaches it and it gets no entries at all, even though next-day
candidates exist. -/
theorem c2_tomorrow_entries_mangled :
    (dictGet? (get_scheduled_arrivals [] [] 43200
      [[⟨"S", "t1", "23:00:00"⟩, ⟨"S", "t0", "01:00:00"⟩]]) "S").getD [] =
      ["Unknown - Unknown - t1 - 23:00:00", "n"] ∧
    get_scheduled_arrivals [] [] 43200 [[⟨"S", "t0", "01:00:00"⟩]] = [] := by
  constructor <;> decide
